import Mathlib

/-!
# Shallow embedding of the shelf.nu booking service module

This file embeds, as executable Lean definitions, the two source files of the
repository:

* `app/utils/geolocate.server.ts` — the `geolocate` helper and the booking
  service (`upsertBooking`, `getBookings`, `removeAssets`, `deleteBooking`,
  `getBooking`, with the private helpers `cancelSheduler`,
  `scheduleNextBookingJob`, `updateBookinAssetStates`);
* the jotai atom file defining `selectedBulkItemsAtom` and
  `setSelectedBulkItemAtom`.

Database rows are modelled as Lean structures, the Prisma client as explicit
state passing over a `DBState`, outbound side effects (scheduler calls and
e-mails) as a list of `Effect` values, and fallible operations as `Except`.
Dates are modelled as integer milliseconds since the epoch (the JS `Date`
value `getTime()`), so `setHours(getHours() - 1)` is subtraction of
3600000 ms.
-/

/-- Prisma enum `BookingStatus` (from the schema; the service code references
all members except `DRAFT`, which is the creation default). -/
inductive BookingStatus where
  | DRAFT
  | RESERVED
  | ONGOING
  | OVERDUE
  | COMPLETE
  | ARCHIVED
  | CANCELLED
deriving DecidableEq, Repr

/-- Prisma enum `AssetStatus`. -/
inductive AssetStatus where
  | AVAILABLE
  | IN_CUSTODY
  | CHECKED_OUT
deriving DecidableEq, Repr

/-- An `Asset` row, restricted to the fields the embedded code reads. -/
structure Asset where
  id : Nat
  status : AssetStatus
deriving DecidableEq, Repr

/-- A `User` row. JS reads `custodianUser?.email`; an empty string is falsy
in JS, so the e-mail guard `if (email)` is modelled as `email ≠ ""`. -/
structure User where
  id : Nat
  email : String
  firstName : String
  lastName : String
deriving DecidableEq, Repr

/-- A `TeamMember` row (with its optional linked user, as selected by
`db.teamMember.findUnique({ select: { id, user } })`). -/
structure TeamMember where
  id : Nat
  name : String
  userId : Option Nat
deriving DecidableEq, Repr

/-- A `Booking` row, with its to-many `assets` relation flattened to the list
of related asset ids (`assetIds`).  `from` and `to` are Lean keywords, hence `from_` and `to_`. -/
structure Booking where
  id : Nat
  name : String
  status : BookingStatus
  from_ : Option Int
  to_ : Option Int
  custodianUserId : Option Nat
  custodianTeamMemberId : Option Nat
  creatorId : Option Nat
  organizationId : Option Nat
  activeSchedulerReference : Option Nat
  assetIds : List Nat
deriving DecidableEq, Repr

/-- The database state visible to the embedded code, plus fresh-id counters
for `db.booking.create` and `scheduler.sendAfter`. -/
structure DBState where
  bookings : List Booking
  assets : List Asset
  users : List User
  teamMembers : List TeamMember
  nextBookingId : Nat
  nextJobId : Nat
deriving DecidableEq, Repr

/-- Which e-mail body builder produced an outgoing message:
`assetReservedEmailContent`, `completedBookingEmailContent`,
`deletedBookingEmailContent`, or `sendCheckinReminder` (all in
`email-helpers`, outside the embedded sources; only their identity matters). -/
inductive EmailTemplate where
  | reserved
  | completed
  | deleted
  | checkinReminder
deriving DecidableEq, Repr

/-- An outbound side effect: a `scheduler.cancel`, a `scheduler.sendAfter`
(with the job id it returned), or a `sendEmail`. -/
inductive Effect where
  | cancelScheduler (ref : Nat)
  | scheduleJob (key : String) (bookingId : Nat) (whenAt : Int) (jobId : Nat)
  | email (toAddr : String) (template : EmailTemplate)
deriving DecidableEq, Repr

/-- `schedulerKeys.checkoutReminder` from `./constants` (not under the
embedded sources; the value is an opaque key string). -/
def checkoutReminderKey : String := "checkout-reminder"

/-- Modelled from the spec: `calcTimeDifference` lives in `~/utils/date-fns`,
which is not among the embedded sources.  The service destructures its
`hours` field and compares it with 1; we model the hours component of the
difference between two ms timestamps as a floored division, matching the
check-in-reminder condition "`to` lies less than one hour from now". -/
def calcTimeDifferenceHours (a b : Int) : Int := Int.fdiv (a - b) 3600000

/-! ## `geolocate` (`geolocate.server.ts`, lines 1–17) -/

/-- The `{ lat, lon }` object built from the first geocoding response entry. -/
structure MapData where
  lat : Int
  lon : Int
deriving DecidableEq, Repr

/-- Errors the embedded operations can raise. `typeError` stands for the JS
`TypeError` thrown by `response[0].lat` on an empty response array;
`shelfStackError` for `throw new ShelfStackError(...)`; `recordNotFound` for
Prisma's error when `update`/`delete` misses its `where`. -/
inductive JsError where
  | typeError
  | shelfStackError
  | recordNotFound
deriving DecidableEq, Repr

/-- `geolocate(address)`.  The network fetch and JSON parse are modelled by
passing the decoded response array directly.  `if (!address || address ===
"") return null` covers exactly `null` and the empty string (the only falsy
strings); `response[0].lat` throws when the array is empty; `mapData || null`
returns `mapData` because an object is always truthy. -/
def geolocate (address : Option String) (response : List MapData) :
    Except JsError (Option MapData) :=
  if address = none ∨ address = some "" then Except.ok none
  else
    match response with
    | [] => Except.error JsError.typeError
    | entry :: _ =>
      let mapData : MapData := { lat := entry.lat, lon := entry.lon }
      Except.ok (some mapData)

/-! ## `setSelectedBulkItemAtom` (jotai atom file, lines 18–29) -/

/-- The write function of `setSelectedBulkItemAtom`: `prev` is the current
value of `selectedBulkItemsAtom`, `update` the written id; the result is the
new atom value. -/
def setSelectedBulkItemAtom (prev : List String) (update : String) : List String :=
  if prev.contains update then
    prev.filter (fun item => item != update)
  else
    prev ++ [update]

/-! ## `getBookings` (`geolocate.server.ts`, lines 304–412)

The function builds a Prisma query `{ skip, take, where }` and hands it to
`db.booking.findMany`; we embed the query construction. -/

/-- The `where.status` clause: either `{ in: l }` or `{ notIn: l }`. -/
inductive StatusFilter where
  | inList (l : List BookingStatus)
  | notInList (l : List BookingStatus)
deriving DecidableEq, Repr

/-- Whether a booking status passes a `StatusFilter`. -/
def StatusFilter.passes : StatusFilter → BookingStatus → Bool
  | StatusFilter.inList l, s => l.contains s
  | StatusFilter.notInList l, s => !(l.contains s)

/-- The `Prisma.BookingWhereInput` object as `getBookings` builds it. -/
structure BookingWhereInput where
  organizationId : Nat
  nameContains : Option String := none
  custodianTeamMemberId : Option Nat := none
  custodianUserId : Option Nat := none
  status : StatusFilter := StatusFilter.notInList []
  assetsSomeIdIn : Option (List Nat) := none
  idNotIn : Option (List Nat) := none
  overlapOr : Option (Int × Int) := none
deriving DecidableEq, Repr

/-- The findMany query `getBookings` constructs. -/
structure BookingQuery where
  skip : Int
  take : Int
  whereInput : BookingWhereInput
deriving DecidableEq, Repr

/-- The named parameters of `getBookings`.  `page` defaults to 1 and
`perPage` to 8 in the destructuring; optional parameters are `Option`s
(`none` = absent/undefined, and for the nullable ones also null). -/
structure GetBookingsParams where
  organizationId : Nat
  page : Option Int := none
  perPage : Option Int := none
  search : Option String := none
  statuses : Option (List BookingStatus) := none
  custodianUserId : Option Nat := none
  custodianTeamMemberId : Option Nat := none
  assetIds : Option (List Nat) := none
  bookingTo : Option Int := none
  excludeBookingIds : Option (List Nat) := none
  bookingFrom : Option Int := none
deriving DecidableEq, Repr

/-- Lines 342–347: `if (search?.trim()?.length) where.name = { contains: search.trim(), mode: "insensitive" }`. -/
def searchClause (search : Option String) (w : BookingWhereInput) : BookingWhereInput :=
  match search with
  | some s => if s.trim.length > 0 then { w with nameContains := some s.trim } else w
  | none => w

/-- Lines 348–350: `if (custodianTeamMemberId) where.custodianTeamMemberId = custodianTeamMemberId`. -/
def custodianTeamMemberClause (id : Option Nat) (w : BookingWhereInput) : BookingWhereInput :=
  match id with
  | some t => { w with custodianTeamMemberId := some t }
  | none => w

/-- Lines 351–353: `if (custodianUserId) where.custodianUserId = custodianUserId`. -/
def custodianUserClause (id : Option Nat) (w : BookingWhereInput) : BookingWhereInput :=
  match id with
  | some u => { w with custodianUserId := some u }
  | none => w

/-- Lines 354–362: `where.status = statuses?.length ? { in: statuses } : { notIn: [ARCHIVED] }`. -/
def statusClause (statuses : Option (List BookingStatus)) (w : BookingWhereInput) : BookingWhereInput :=
  match statuses with
  | some l =>
    if l.isEmpty then { w with status := StatusFilter.notInList [BookingStatus.ARCHIVED] }
    else { w with status := StatusFilter.inList l }
  | none => { w with status := StatusFilter.notInList [BookingStatus.ARCHIVED] }

/-- Lines 364–373: `if (assetIds?.length) where.assets = { some: { id: { in: assetIds } } }`. -/
def assetIdsClause (assetIds : Option (List Nat)) (w : BookingWhereInput) : BookingWhereInput :=
  match assetIds with
  | some l => if l.isEmpty then w else { w with assetsSomeIdIn := some l }
  | none => w

/-- Lines 375–377: `if (excludeBookingIds?.length) where.id = { notIn: excludeBookingIds }`. -/
def excludeBookingIdsClause (ids : Option (List Nat)) (w : BookingWhereInput) : BookingWhereInput :=
  match ids with
  | some l => if l.isEmpty then w else { w with idNotIn := some l }
  | none => w

/-- Lines 378–389: `if (bookingFrom && bookingTo) where.OR = [...]`. -/
def overlapClause (bookingFrom bookingTo : Option Int) (w : BookingWhereInput) : BookingWhereInput :=
  match bookingFrom, bookingTo with
  | some f, some t => { w with overlapOr := some (f, t) }
  | _, _ => w

/-- `getBookings`: the query construction part (lines 304–389). -/
def getBookings (p : GetBookingsParams) : BookingQuery :=
  let page := p.page.getD 1
  let perPage := p.perPage.getD 8
  let skip : Int := if page > 1 then (page - 1) * perPage else 0
  let take : Int := if perPage >= 1 && perPage <= 100 then perPage else 20
  let w : BookingWhereInput := { organizationId := p.organizationId }
  let w := searchClause p.search w
  let w := custodianTeamMemberClause p.custodianTeamMemberId w
  let w := custodianUserClause p.custodianUserId w
  let w := statusClause p.statuses w
  let w := assetIdsClause p.assetIds w
  let w := excludeBookingIdsClause p.excludeBookingIds w
  let w := overlapClause p.bookingFrom p.bookingTo w
  { skip := skip, take := take, whereInput := w }

/-! ## Booking service helpers (`geolocate.server.ts`, lines 40–81) -/

/-- `db.booking.findFirst({ where: { id } })` / the `where: { id }` lookup
used by `update`/`delete`. -/
def findBooking (st : DBState) (id : Nat) : Option Booking :=
  st.bookings.find? (fun b => b.id == id)

/-- Store an updated booking row back into the database. -/
def storeBooking (st : DBState) (b : Booking) : DBState :=
  { st with bookings := st.bookings.map (fun x => if x.id == b.id then b else x) }

/-- `res.custodianUser?.email` followed by the JS truthiness guard
`if (email)`: the user related through `custodianUserId` (the
`custodianUser` include), `none` when there is no such user or the address
is the empty string. -/
def custodianEmail (st : DBState) (b : Booking) : Option String :=
  match b.custodianUserId with
  | some uid =>
    match st.users.find? (fun u => u.id == uid) with
    | some u => if u.email = "" then none else some u.email
    | none => none
  | none => none

/-- `cancelSheduler(b)` (lines 40–48): emits a `scheduler.cancel` for
`b?.activeSchedulerReference` when that reference is set; a failed cancel is
swallowed, so the call never errors. -/
def cancelSheduler (b : Option Booking) : List Effect :=
  match b with
  | some bb =>
    match bb.activeSchedulerReference with
    | some r => [Effect.cancelScheduler r]
    | none => []
  | none => []

/-- `scheduleNextBookingJob({ data, when, key })` (lines 50–64):
`scheduler.sendAfter` returns a fresh job id, then
`db.booking.update({ where: { id: data.id }, data: { activeSchedulerReference: id } })`.
Returns the new state, the emitted effect and the job id. -/
def scheduleNextBookingJob (bookingId : Nat) (whenAt : Int) (key : String)
    (st : DBState) : DBState × List Effect × Nat :=
  let jobId := st.nextJobId
  let st1 : DBState := { st with nextJobId := st.nextJobId + 1 }
  let st2 : DBState :=
    { st1 with
      bookings := st1.bookings.map (fun b =>
        if b.id == bookingId then { b with activeSchedulerReference := some jobId } else b) }
  (st2, [Effect.scheduleJob key bookingId whenAt jobId], jobId)

/-- `updateBookinAssetStates(booking, status)` (lines 66–76):
`db.asset.updateMany({ where: { status: { not: status }, id: { in: booking.assets.map(a => a.id) } }, data: { status } })`. -/
def updateBookinAssetStates (booking : Booking) (status : AssetStatus)
    (st : DBState) : DBState :=
  { st with
    assets := st.assets.map (fun a =>
      if a.status != status && booking.assetIds.contains a.id then
        { a with status := status }
      else a) }

/-! ## `upsertBooking` (`geolocate.server.ts`, lines 83–302) -/

/-- The function argument: `Partial<Pick<Booking, ...> & { assetIds }>`.
A `some` field is a provided (and, for the relation ids, truthy) value. -/
structure UpsertInput where
  id : Option Nat := none
  name : Option String := none
  status : Option BookingStatus := none
  from_ : Option Int := none
  to_ : Option Int := none
  creatorId : Option Nat := none
  organizationId : Option Nat := none
  custodianTeamMemberId : Option Nat := none
  custodianUserId : Option Nat := none
  assetIds : Option (List Nat) := none
deriving DecidableEq, Repr

/-- A nested relation operation in `Prisma.BookingUpdateInput`:
`{ connect: { id } }` or `{ disconnect: true }`. -/
inductive ConnectOp where
  | connect (id : Nat)
  | disconnect
deriving DecidableEq, Repr

/-- The `Prisma.BookingUpdateInput` object `data` as `upsertBooking` builds
it: the `...rest` scalar fields plus the relation operations added by the
`assetIds` / custodian / creator / organization branches. -/
structure BookingData where
  name : Option String := none
  status : Option BookingStatus := none
  from_ : Option Int := none
  to_ : Option Int := none
  assetsConnect : List Nat := []
  custodianUserOp : Option ConnectOp := none
  custodianTeamMemberOp : Option ConnectOp := none
  creatorConnect : Option Nat := none
  organizationConnect : Option Nat := none
deriving DecidableEq, Repr

/-- Lines 100–109: `const { assetIds, creatorId, ... , ...rest } = booking;
let data = { ...rest }`. -/
def restData (input : UpsertInput) : BookingData :=
  { name := input.name, status := input.status,
    from_ := input.from_, to_ := input.to_ }

/-- Lines 110–116: `if (assetIds?.length) data.assets = { connect: ... }`. -/
def assetConnectData (assetIds : Option (List Nat)) (d : BookingData) : BookingData :=
  match assetIds with
  | some l => if l.isEmpty then d else { d with assetsConnect := l }
  | none => d

/-- Lines 117–153: the custodian branches — `custodianUserId` connects the
user and disconnects the team member; otherwise `custodianTeamMemberId`
reads `db.teamMember.findUnique` (throwing `ShelfStackError` when the
member is missing), connects the member, and connects or disconnects the
user depending on whether the member has a linked user. -/
def custodianData (input : UpsertInput) (st : DBState) (d : BookingData) :
    Except JsError BookingData :=
  match input.custodianUserId with
  | some uid =>
    Except.ok { d with
      custodianUserOp := some (ConnectOp.connect uid),
      custodianTeamMemberOp := some ConnectOp.disconnect }
  | none =>
    match input.custodianTeamMemberId with
    | some tmId =>
      match st.teamMembers.find? (fun t => t.id == tmId) with
      | none => Except.error JsError.shelfStackError
      | some tm =>
        let d := { d with custodianTeamMemberOp := some (ConnectOp.connect tmId) }
        match tm.userId with
        | some uid => Except.ok { d with custodianUserOp := some (ConnectOp.connect uid) }
        | none => Except.ok { d with custodianUserOp := some ConnectOp.disconnect }
    | none => Except.ok d

/-- Lines 100–153: destructure the input into `data = { ...rest }`, then the
`assetIds?.length` branch and the custodian branches. -/
def buildBookingData (input : UpsertInput) (st : DBState) :
    Except JsError BookingData :=
  custodianData input st (assetConnectData input.assetIds (restData input))

/-- Apply a `Prisma.BookingUpdateInput` to a stored booking row: scalar
fields overwrite when present, `assets.connect` adds the listed ids to the
relation, `connect`/`disconnect` set/clear the custodian foreign keys, and
`creator`/`organization` connects set those foreign keys. -/
def applyData (d : BookingData) (b : Booking) : Booking :=
  { b with
    name := d.name.getD b.name,
    status := d.status.getD b.status,
    from_ := match d.from_ with | some v => some v | none => b.from_,
    to_ := match d.to_ with | some v => some v | none => b.to_,
    assetIds := b.assetIds ++ d.assetsConnect.filter (fun i => !(b.assetIds.contains i)),
    custodianUserId :=
      match d.custodianUserOp with
      | some (ConnectOp.connect u) => some u
      | some ConnectOp.disconnect => none
      | none => b.custodianUserId,
    custodianTeamMemberId :=
      match d.custodianTeamMemberOp with
      | some (ConnectOp.connect t) => some t
      | some ConnectOp.disconnect => none
      | none => b.custodianTeamMemberId,
    creatorId := match d.creatorConnect with | some c => some c | none => b.creatorId,
    organizationId := match d.organizationConnect with | some o => some o | none => b.organizationId }

/-- `db.booking.create({ data })`: a fresh row with the next booking id;
absent scalars take the schema defaults (`status` defaults to `DRAFT`,
nullable columns to null). -/
def createBooking (d : BookingData) (st : DBState) : DBState × Booking :=
  let b : Booking :=
    { id := st.nextBookingId,
      name := d.name.getD "",
      status := d.status.getD BookingStatus.DRAFT,
      from_ := d.from_,
      to_ := d.to_,
      custodianUserId :=
        match d.custodianUserOp with
        | some (ConnectOp.connect u) => some u
        | _ => none,
      custodianTeamMemberId :=
        match d.custodianTeamMemberOp with
        | some (ConnectOp.connect t) => some t
        | _ => none,
      creatorId := d.creatorConnect,
      organizationId := d.organizationConnect,
      activeSchedulerReference := none,
      assetIds := d.assetsConnect }
  ({ st with bookings := st.bookings ++ [b], nextBookingId := st.nextBookingId + 1 }, b)

/-- Lines 157–161: `[ARCHIVED, CANCELLED, COMPLETE].includes(booking.status)`
(false when the input carries no status). -/
def isTerminalState (input : UpsertInput) : Bool :=
  match input.status with
  | some s => [BookingStatus.ARCHIVED, BookingStatus.CANCELLED, BookingStatus.COMPLETE].contains s
  | none => false

/-- Lines 195–202: the condition turning the assets `CHECKED_OUT` — the
requested status is `ONGOING`, or the updated row is `ONGOING` and the
request attached at least one asset id. -/
def ongoingAssetCondition (input : UpsertInput) (res : Booking) : Bool :=
  input.status == some BookingStatus.ONGOING ||
    (res.status == BookingStatus.ONGOING &&
      (match input.assetIds with | some l => !l.isEmpty | none => false))

/-- Lines 220–270: the e-mail dispatch on a status change.  `data.status`
truthy means the input carried a status; the address comes from
`res.custodianUser?.email`.  `RESERVED`/`COMPLETE` send the reserved resp.
completed template; `ONGOING` with a set `to` whose hour distance from now
is below 1 sends the check-in reminder (`sendCheckinReminder`). -/
def statusChangeEmail (data : BookingData) (res : Booking) (now : Int)
    (st : DBState) : List Effect :=
  match data.status with
  | some s =>
    match custodianEmail st res with
    | some e =>
      if s = BookingStatus.RESERVED || s = BookingStatus.COMPLETE then
        [Effect.email e (if s = BookingStatus.COMPLETE then EmailTemplate.completed else EmailTemplate.reserved)]
      else if s = BookingStatus.ONGOING then
        match res.to_ with
        | some t =>
          if calcTimeDifferenceHours t now < 1 then
            [Effect.email e EmailTemplate.checkinReminder]
          else []
        | none => []
      else []
    | none => []
  | none => []

/-- Lines 156–202: the selection of `newAssetStatus` — `AVAILABLE` when a
terminal status is requested and the stored booking was `ONGOING`/`OVERDUE`
(lines 168–177), overridden to `CHECKED_OUT` by the ongoing condition
(lines 195–202). -/
def newAssetStatusFor (input : UpsertInput) (res : Booking)
    (oldBooking : Option Booking) : Option AssetStatus :=
  let newAssetStatus0 : Option AssetStatus :=
    if isTerminalState input then
      match oldBooking with
      | some ob =>
        if [BookingStatus.ONGOING, BookingStatus.OVERDUE].contains ob.status then
          some AssetStatus.AVAILABLE
        else none
      | none => none
    else none
  if ongoingAssetCondition input res then some AssetStatus.CHECKED_OUT
  else newAssetStatus0

/-- Lines 204–207: `if (newAssetStatus) promises.push(updateBookinAssetStates(res, newAssetStatus))`
— apply the asset-status update when one was selected, else leave the state. -/
def applyAssetStatusUpdate (o : Option AssetStatus) (res : Booking) (st : DBState) : DBState :=
  match o with
  | some s => updateBookinAssetStates res s st
  | none => st

/-- The `if (res.from && booking.status === BookingStatus.RESERVED)` block
shared by the update path (lines 208–219) and the create path (lines
291–300): cancel any scheduler job referenced by `res`, then schedule the
checkout reminder for one hour before `res.from`.  Returns the state after
`scheduleNextBookingJob` and the emitted effects. -/
def reservedCheckoutScheduling (input : UpsertInput) (res : Booking)
    (st : DBState) : DBState × List Effect :=
  match res.from_, input.status with
  | some f, some BookingStatus.RESERVED =>
    ((scheduleNextBookingJob res.id (f - 3600000) checkoutReminderKey st).1,
      cancelSheduler (some res) ++
        (scheduleNextBookingJob res.id (f - 3600000) checkoutReminderKey st).2.1)
  | _, _ => (st, ([] : List Effect))

/-- The update path of `upsertBooking` (lines 155–274), entered when the
input carries an id.  Returns the new database state, the emitted effects
and the object `res` returned to the caller (note `res` is the row as the
`db.booking.update` call returned it, before `scheduleNextBookingJob`
rewrites `activeSchedulerReference` in the store). -/
def upsertBookingUpdatePath (input : UpsertInput) (data : BookingData)
    (now : Int) (st : DBState) (bid : Nat) :
    Except JsError (DBState × List Effect × Booking) :=
  let oldBooking := if isTerminalState input then findBooking st bid else none
  let effects0 := if isTerminalState input then cancelSheduler oldBooking else []
  match findBooking st bid with
  | none => Except.error JsError.recordNotFound
  | some old =>
    let res := applyData data old
    let st1 := storeBooking st res
    let st2 := applyAssetStatusUpdate (newAssetStatusFor input res oldBooking) res st1
    let rcs := reservedCheckoutScheduling input res st2
    Except.ok (rcs.1, effects0 ++ rcs.2 ++ statusChangeEmail data res now st, res)

/-- Lines 277–281: `if (creatorId) data.creator = { connect: { id: creatorId } }`. -/
def creatorConnectData (creatorId : Option Nat) (d : BookingData) : BookingData :=
  match creatorId with
  | some c => { d with creatorConnect := some c }
  | none => d

/-- Lines 282–286: `if (organizationId) data.organization = { connect: { id: organizationId } }`. -/
def organizationConnectData (orgId : Option Nat) (d : BookingData) : BookingData :=
  match orgId with
  | some o => { d with organizationConnect := some o }
  | none => d

/-- The create path of `upsertBooking` (lines 276–301), entered when the
input carries no id: connect `creator`/`organization` (allowed only while
creating), `db.booking.create`, then the same reserved-checkout-reminder
scheduling as on the update path. -/
def upsertBookingCreatePath (input : UpsertInput) (data : BookingData)
    (st : DBState) : Except JsError (DBState × List Effect × Booking) :=
  let data2 := organizationConnectData input.organizationId
    (creatorConnectData input.creatorId data)
  let out := createBooking data2 st
  let st1 := out.1
  let res := out.2
  let rcs := reservedCheckoutScheduling input res st1
  Except.ok (rcs.1, rcs.2, res)

/-- `upsertBooking(booking, hints)` (lines 83–302).  `now` is the clock read
by `new Date()` in the check-in-reminder branch; the `hints` argument is
only forwarded to the scheduler payload and e-mail bodies and carries no
branching information, so it is not modelled. -/
def upsertBooking (input : UpsertInput) (now : Int) (st : DBState) :
    Except JsError (DBState × List Effect × Booking) :=
  match buildBookingData input st with
  | Except.error e => Except.error e
  | Except.ok data =>
    match input.id with
    | some bid => upsertBookingUpdatePath input data now st bid
    | none => upsertBookingCreatePath input data st

/-- `removeAssets(booking)` (lines 414–428): disconnect the listed asset ids
from the booking's relation. -/
def removeAssets (id : Nat) (assetIds : List Nat) (st : DBState) :
    Except JsError (DBState × Booking) :=
  match findBooking st id with
  | none => Except.error JsError.recordNotFound
  | some b =>
    let b' := { b with assetIds := b.assetIds.filter (fun i => !(assetIds.contains i)) }
    Except.ok (storeBooking st b', b')

/-- `deleteBooking(booking, hints)` (lines 430–479): read whether the row is
currently `ONGOING`/`OVERDUE` (`findFirst` with the status `in` filter),
delete it, send the deletion e-mail when the custodian user has an address,
restore the attached assets to `AVAILABLE` when the booking was active, and
cancel any active scheduler job. -/
def deleteBooking (id : Nat) (st : DBState) :
    Except JsError (DBState × List Effect × Booking) :=
  let activeBooking := st.bookings.find? (fun b =>
    b.id == id && [BookingStatus.OVERDUE, BookingStatus.ONGOING].contains b.status)
  match findBooking st id with
  | none => Except.error JsError.recordNotFound
  | some b =>
    let st1 : DBState := { st with bookings := st.bookings.filter (fun x => x.id != id) }
    let emailEffects :=
      match custodianEmail st b with
      | some e => [Effect.email e EmailTemplate.deleted]
      | none => []
    let st2 := if activeBooking.isSome then updateBookinAssetStates b AssetStatus.AVAILABLE st1 else st1
    Except.ok (st2, emailEffects ++ cancelSheduler (some b), b)

/-- `getBooking(booking)` (lines 481–496). -/
def getBooking (id : Nat) (st : DBState) : Option Booking :=
  findBooking st id

/-! ## Lemmas about the `getBookings` where-clause builders -/

theorem assetIdsClause_status (l : Option (List Nat)) (w : BookingWhereInput) :
    (assetIdsClause l w).status = w.status := by
  unfold assetIdsClause
  cases l with
  | none => rfl
  | some x => dsimp only; split <;> rfl

theorem excludeBookingIdsClause_status (l : Option (List Nat)) (w : BookingWhereInput) :
    (excludeBookingIdsClause l w).status = w.status := by
  unfold excludeBookingIdsClause
  cases l with
  | none => rfl
  | some x => dsimp only; split <;> rfl

theorem overlapClause_status (f t : Option Int) (w : BookingWhereInput) :
    (overlapClause f t w).status = w.status := by
  unfold overlapClause
  cases f <;> cases t <;> rfl

/-! ## Claim theorems -/

/-- C6: for every `getBookings` call, the constructed list query skips
`(page - 1) * perPage` records when `page > 1` and 0 records otherwise, and
takes `perPage` records when `1 ≤ perPage ≤ 100` and 20 records otherwise
(`page` and `perPage` being the parameters after their destructuring
defaults of 1 and 8). -/
theorem getBookings_pagination (p : GetBookingsParams) :
    ((p.page.getD 1) > 1 →
      (getBookings p).skip = ((p.page.getD 1) - 1) * (p.perPage.getD 8)) ∧
    (¬((p.page.getD 1) > 1) → (getBookings p).skip = 0) ∧
    (1 ≤ (p.perPage.getD 8) ∧ (p.perPage.getD 8) ≤ 100 →
      (getBookings p).take = p.perPage.getD 8) ∧
    (¬(1 ≤ (p.perPage.getD 8) ∧ (p.perPage.getD 8) ≤ 100) →
      (getBookings p).take = 20) := by
  refine ⟨?_, ?_, ?_, ?_⟩ <;> intro h <;> simp [getBookings] <;> omega

/-- Witness for C6 at `page = 3`, `perPage = 10`: skip is 20 and take is 10. -/
theorem getBookings_pagination_witness :
    (3 : Int) > 1 ∧ ((1 : Int) ≤ 10 ∧ (10 : Int) ≤ 100) ∧
    (getBookings { organizationId := 1, page := some 3, perPage := some 10 }).skip = 20 ∧
    (getBookings { organizationId := 1, page := some 3, perPage := some 10 }).take = 10 := by
  refine ⟨by norm_num, ⟨by norm_num, by norm_num⟩, ?_, ?_⟩
  · have h := (getBookings_pagination
      { organizationId := 1, page := some 3, perPage := some 10 }).1 (by norm_num)
    simpa using h
  · have h := (getBookings_pagination
      { organizationId := 1, page := some 3, perPage := some 10 }).2.2.1
      ⟨by norm_num, by norm_num⟩
    simpa using h

/-- C7: when the `statuses` argument is null or the empty list the
constructed filter is `notIn [ARCHIVED]`, which admits exactly the
non-`ARCHIVED` statuses; when `statuses` is non-empty the filter is
`in statuses`, which admits exactly the statuses in the given list. -/
theorem getBookings_status_filter (p : GetBookingsParams) (s : BookingStatus) :
    ((p.statuses = none ∨ p.statuses = some []) →
      ((getBookings p).whereInput.status.passes s = true ↔ s ≠ BookingStatus.ARCHIVED)) ∧
    (∀ l, p.statuses = some l → l ≠ [] →
      ((getBookings p).whereInput.status.passes s = true ↔ s ∈ l)) := by
  have hw : (getBookings p).whereInput.status =
      (statusClause p.statuses
        (custodianUserClause p.custodianUserId
          (custodianTeamMemberClause p.custodianTeamMemberId
            (searchClause p.search { organizationId := p.organizationId })))).status := by
    simp [getBookings, overlapClause_status, excludeBookingIdsClause_status,
      assetIdsClause_status]
  constructor
  · intro h
    rw [hw]
    rcases h with h | h <;> simp [statusClause, h, StatusFilter.passes]
  · intro l hl hne
    rw [hw]
    simp [statusClause, hl, hne, StatusFilter.passes, List.isEmpty_iff]

/-- Witness for C7: with `statuses = [ONGOING]` the filter passes `ONGOING`;
with `statuses` absent it rejects `ARCHIVED`. -/
theorem getBookings_status_filter_witness :
    ((getBookings { organizationId := 1, statuses := some [BookingStatus.ONGOING] }).whereInput.status.passes
      BookingStatus.ONGOING = true) ∧
    ¬((getBookings { organizationId := 1 }).whereInput.status.passes
      BookingStatus.ARCHIVED = true) := by
  constructor
  · exact ((getBookings_status_filter
      { organizationId := 1, statuses := some [BookingStatus.ONGOING] }
      BookingStatus.ONGOING).2 [BookingStatus.ONGOING] rfl (by decide)).mpr (by decide)
  · intro hcon
    exact absurd (((getBookings_status_filter { organizationId := 1 }
      BookingStatus.ARCHIVED).1 (Or.inl rfl)).mp hcon) (by decide)

/-- C9 counterexample: on the duplicate-free list `["a", "b"]`, writing
`"a"` twice yields `["b", "a"]`, not the original list — the claim that a
double write restores the original list is false when the id occurs before
the end of the list. -/
theorem setSelectedBulkItemAtom_double_toggle_counterexample :
    (["a", "b"] : List String).Nodup ∧
    setSelectedBulkItemAtom (setSelectedBulkItemAtom ["a", "b"] "a") "a" ≠ ["a", "b"] := by
  decide

/-- C9 (amended): writing an id toggles its membership — if the id occurs,
every occurrence is removed; otherwise it is appended at the end.  Writing
the same id twice yields a list with exactly the same members, and exactly
the original list when the id did not occur in it. -/
theorem setSelectedBulkItemAtom_toggle (prev : List String) (update : String) :
    (update ∈ prev → update ∉ setSelectedBulkItemAtom prev update) ∧
    (update ∉ prev → setSelectedBulkItemAtom prev update = prev ++ [update]) ∧
    (update ∉ prev →
      setSelectedBulkItemAtom (setSelectedBulkItemAtom prev update) update = prev) ∧
    (∀ x, x ∈ setSelectedBulkItemAtom (setSelectedBulkItemAtom prev update) update ↔
      x ∈ prev) := by
  have hmem : ∀ (l : List String), update ∈ l →
      setSelectedBulkItemAtom l update = l.filter (fun item => item != update) :=
    fun l h => by simp [setSelectedBulkItemAtom, h]
  have hnot : update ∉ prev →
      setSelectedBulkItemAtom prev update = prev ++ [update] :=
    fun h => by simp [setSelectedBulkItemAtom, h]
  refine ⟨fun h => ?_, hnot, fun h => ?_, fun x => ?_⟩
  · simp [setSelectedBulkItemAtom, h]
  · rw [hnot h, hmem (prev ++ [update]) (by simp)]
    rw [List.filter_append]
    simp only [List.filter_cons, List.filter_nil, bne_self_eq_false, Bool.false_eq_true,
      if_false, List.append_nil]
    rw [List.filter_eq_self]
    intro a ha
    simp only [bne_iff_ne, ne_eq]
    intro hh
    exact h (hh ▸ ha)
  · by_cases h : update ∈ prev <;>
      simp [setSelectedBulkItemAtom, h, List.mem_filter] <;>
      by_cases hx : x = update <;> simp [hx, h]

/-- Witness for C9 at `prev = ["a"]`, `update = "b"`: the id is appended and
the double write restores the original list. -/
theorem setSelectedBulkItemAtom_toggle_witness :
    ("b" ∉ (["a"] : List String)) ∧
    setSelectedBulkItemAtom ["a"] "b" = ["a", "b"] ∧
    setSelectedBulkItemAtom (setSelectedBulkItemAtom ["a"] "b") "b" = ["a"] :=
  ⟨by decide, (setSelectedBulkItemAtom_toggle ["a"] "b").2.1 (by decide),
    (setSelectedBulkItemAtom_toggle ["a"] "b").2.2.1 (by decide)⟩

/-- C10: `geolocate` returns null exactly when the address is null or the
empty string; for a non-empty address whose response array is non-empty
(the read succeeds) it returns the lat/lon of the first entry, so the
trailing `|| null` fallback is never the result for a non-empty address. -/
theorem geolocate_null_iff (address : Option String) (response : List MapData) :
    (geolocate address response = Except.ok none ↔
      (address = none ∨ address = some "")) ∧
    (¬(address = none ∨ address = some "") →
      ∀ entry rest, response = entry :: rest →
        geolocate address response = Except.ok (some { lat := entry.lat, lon := entry.lon })) := by
  constructor
  · unfold geolocate
    split
    · next h => simp [h]
    · next h =>
      cases response with
      | nil => simp [h]
      | cons e r => simp [h]
  · intro h entry rest hresp
    unfold geolocate
    rw [if_neg h, hresp]

/-- Witness for C10 at address `"x"` with a one-entry response. -/
theorem geolocate_null_iff_witness :
    ¬((some "x" : Option String) = none ∨ (some "x" : Option String) = some "") ∧
    geolocate (some "x") [{ lat := 1, lon := 2 }] = Except.ok (some { lat := 1, lon := 2 }) :=
  ⟨by decide,
    (geolocate_null_iff (some "x") [{ lat := 1, lon := 2 }]).2 (by decide) _ [] rfl⟩

/-! ## Lemmas about the booking service embedding -/

theorem storeBooking_assets (st : DBState) (b : Booking) :
    (storeBooking st b).assets = st.assets := rfl

theorem scheduleNextBookingJob_assets (bookingId : Nat) (whenAt : Int) (key : String)
    (st : DBState) : (scheduleNextBookingJob bookingId whenAt key st).1.assets = st.assets := rfl

theorem reservedCheckoutScheduling_assets (input : UpsertInput) (res : Booking)
    (st : DBState) : (reservedCheckoutScheduling input res st).1.assets = st.assets := by
  unfold reservedCheckoutScheduling
  split <;> rfl

theorem applyAssetStatusUpdate_bookings (o : Option AssetStatus) (res : Booking)
    (st : DBState) : (applyAssetStatusUpdate o res st).bookings = st.bookings := by
  cases o <;> rfl

theorem applyAssetStatusUpdate_nextJobId (o : Option AssetStatus) (res : Booking)
    (st : DBState) : (applyAssetStatusUpdate o res st).nextJobId = st.nextJobId := by
  cases o <;> rfl

theorem updateBookinAssetStates_mem (b : Booking) (s : AssetStatus) (st : DBState) :
    ∀ a ∈ (updateBookinAssetStates b s st).assets, a.id ∈ b.assetIds → a.status = s := by
  intro a ha hid
  unfold updateBookinAssetStates at ha
  simp only [List.mem_map] at ha
  obtain ⟨x, hx, hfx⟩ := ha
  subst hfx
  by_cases hcond : (x.status != s && b.assetIds.contains x.id) = true
  · rw [if_pos hcond]
  · rw [if_neg hcond] at hid ⊢
    simp only [Bool.and_eq_true, bne_iff_ne, ne_eq] at hcond
    by_cases hs : x.status = s
    · exact hs
    · exact absurd (And.intro hs (by simpa using hid)) hcond

theorem custodianData_fields (input : UpsertInput) (st : DBState) (d d' : BookingData)
    (h : custodianData input st d = Except.ok d') :
    d'.name = d.name ∧ d'.status = d.status ∧ d'.from_ = d.from_ ∧ d'.to_ = d.to_ ∧
    d'.assetsConnect = d.assetsConnect ∧ d'.creatorConnect = d.creatorConnect ∧
    d'.organizationConnect = d.organizationConnect := by
  unfold custodianData at h
  cases h1 : input.custodianUserId with
  | some uid =>
    simp only [h1] at h
    cases h
    simp
  | none =>
    simp only [h1] at h
    cases h2 : input.custodianTeamMemberId with
    | none =>
      simp only [h2] at h
      cases h
      simp
    | some tmId =>
      simp only [h2] at h
      cases h3 : st.teamMembers.find? (fun t => t.id == tmId) with
      | none =>
        simp only [h3] at h
        simp at h
      | some tm =>
        simp only [h3] at h
        cases h4 : tm.userId with
        | some uid =>
          simp only [h4] at h
          cases h
          simp
        | none =>
          simp only [h4] at h
          cases h
          simp

theorem assetConnectData_fields (assetIds : Option (List Nat)) (d : BookingData) :
    (assetConnectData assetIds d).name = d.name ∧
    (assetConnectData assetIds d).status = d.status ∧
    (assetConnectData assetIds d).from_ = d.from_ ∧
    (assetConnectData assetIds d).to_ = d.to_ ∧
    (assetConnectData assetIds d).creatorConnect = d.creatorConnect ∧
    (assetConnectData assetIds d).organizationConnect = d.organizationConnect := by
  unfold assetConnectData
  cases assetIds with
  | none => simp
  | some l => dsimp only; split <;> simp

theorem buildBookingData_fields (input : UpsertInput) (st : DBState) (d : BookingData)
    (h : buildBookingData input st = Except.ok d) :
    d.status = input.status ∧ d.from_ = input.from_ ∧ d.to_ = input.to_ ∧
    d.creatorConnect = none ∧ d.organizationConnect = none := by
  unfold buildBookingData at h
  have h1 := custodianData_fields _ _ _ _ h
  have h2 := assetConnectData_fields input.assetIds (restData input)
  refine ⟨?_, ?_, ?_, ?_, ?_⟩ <;> simp_all [restData]

theorem cancelSheduler_no_email (b : Option Booking) (e : String) (tmpl : EmailTemplate) :
    Effect.email e tmpl ∉ cancelSheduler b := by
  unfold cancelSheduler
  cases b with
  | none => simp
  | some bb => cases h : bb.activeSchedulerReference <;> simp [h]

theorem reservedCheckoutScheduling_no_email (input : UpsertInput) (res : Booking)
    (st : DBState) (e : String) (tmpl : EmailTemplate) :
    Effect.email e tmpl ∉ (reservedCheckoutScheduling input res st).2 := by
  unfold reservedCheckoutScheduling
  split
  · intro hmem
    simp only [List.mem_append] at hmem
    rcases hmem with hmem | hmem
    · exact cancelSheduler_no_email _ _ _ hmem
    · simp [scheduleNextBookingJob] at hmem
  · simp

theorem statusChangeEmail_mem (data : BookingData) (res : Booking) (now : Int)
    (st : DBState) (s : BookingStatus) (e : String) (tmpl : EmailTemplate)
    (hds : data.status = some s) :
    Effect.email e tmpl ∈ statusChangeEmail data res now st ↔
      (custodianEmail st res = some e ∧
        ((tmpl = EmailTemplate.reserved ∧ s = BookingStatus.RESERVED) ∨
         (tmpl = EmailTemplate.completed ∧ s = BookingStatus.COMPLETE) ∨
         (tmpl = EmailTemplate.checkinReminder ∧ s = BookingStatus.ONGOING ∧
           ∃ t, res.to_ = some t ∧ calcTimeDifferenceHours t now < 1))) := by
  unfold statusChangeEmail
  rw [hds]
  cases hce : custodianEmail st res with
  | none => simp
  | some e0 =>
    cases s with
    | DRAFT => simp
    | RESERVED => simp [eq_comm]
    | ONGOING =>
      cases hto : res.to_ with
      | none => simp
      | some t =>
        by_cases hlt : calcTimeDifferenceHours t now < 1 <;>
          simp [hlt, eq_comm]
    | OVERDUE => simp
    | COMPLETE => simp [eq_comm]
    | ARCHIVED => simp
    | CANCELLED => simp

/-- C1: for every `upsertBooking` call carrying a booking id and a requested
status in `{COMPLETE, CANCELLED, ARCHIVED}`, if the stored booking's previous
status is `ONGOING` or `OVERDUE` then after the update every asset attached
to the booking has status `AVAILABLE` (those that differed were set, the
rest already were); if the previous status is not `ONGOING`/`OVERDUE`, the
terminal transition changes no asset status. -/
theorem upsertBooking_terminal_assets (input : UpsertInput) (now : Int) (st : DBState) (bid : Nat) (old : Booking)
    (st' : DBState) (effects : List Effect) (res : Booking)
    (hid : input.id = some bid)
    (hterm : input.status = some BookingStatus.ARCHIVED ∨
             input.status = some BookingStatus.CANCELLED ∨
             input.status = some BookingStatus.COMPLETE)
    (hfind : findBooking st bid = some old)
    (hok : upsertBooking input now st = Except.ok (st', effects, res)) :
    ((old.status = BookingStatus.ONGOING ∨ old.status = BookingStatus.OVERDUE) →
      ∀ a ∈ st'.assets, a.id ∈ res.assetIds → a.status = AssetStatus.AVAILABLE) ∧
    (¬(old.status = BookingStatus.ONGOING ∨ old.status = BookingStatus.OVERDUE) →
      st'.assets = st.assets) := by
  unfold upsertBooking at hok
  cases hbd : buildBookingData input st with
  | error e =>
    simp only [hbd] at hok
    simp at hok
  | ok data =>
    simp only [hbd, hid] at hok
    have hdf := buildBookingData_fields _ _ _ hbd
    have hts : isTerminalState input = true := by
      rcases hterm with h | h | h <;> simp [isTerminalState, h]
    have hoc : ongoingAssetCondition input (applyData data old) = false := by
      rcases hterm with h | h | h <;>
        simp [ongoingAssetCondition, h, applyData, hdf.1]
    unfold upsertBookingUpdatePath at hok
    simp only [hfind, hts, if_true, newAssetStatusFor, hoc, Bool.false_eq_true,
      if_false] at hok
    by_cases hstat : [BookingStatus.ONGOING, BookingStatus.OVERDUE].contains old.status = true
    · simp only [hstat, if_true] at hok
      injection hok with hok
      injection hok with hok1 hok
      injection hok with hok2 hok3
      constructor
      · intro _ a ha haid
        rw [← hok1] at ha
        rw [reservedCheckoutScheduling_assets] at ha
        simp only [applyAssetStatusUpdate] at ha
        rw [← hok3] at haid
        exact updateBookinAssetStates_mem _ _ _ a ha haid
      · intro hno
        exfalso
        rcases (by simpa using hstat :
            old.status = BookingStatus.ONGOING ∨ old.status = BookingStatus.OVERDUE) with
          h | h <;> exact hno (by simp [h])
    · simp only [hstat, Bool.false_eq_true, if_false] at hok
      injection hok with hok
      injection hok with hok1 hok
      injection hok with hok2 hok3
      constructor
      · intro hyes
        exfalso
        apply hstat
        rcases hyes with h | h <;> simp [h]
      · intro _
        rw [← hok1]
        rw [reservedCheckoutScheduling_assets]
        simp only [applyAssetStatusUpdate]
        rfl

/-- C2: for every `upsertBooking` call carrying a booking id, if the
requested status is `ONGOING`, or the updated booking's status is `ONGOING`
and the request attaches at least one asset id, then every asset attached
to the updated booking ends with status `CHECKED_OUT`. -/
theorem upsertBooking_ongoing_checked_out (input : UpsertInput) (now : Int) (st : DBState) (bid : Nat)
    (st' : DBState) (effects : List Effect) (res : Booking)
    (hid : input.id = some bid)
    (hok : upsertBooking input now st = Except.ok (st', effects, res))
    (hcond : input.status = some BookingStatus.ONGOING ∨
      (res.status = BookingStatus.ONGOING ∧ ∃ l, input.assetIds = some l ∧ l ≠ [])) :
    ∀ a ∈ st'.assets, a.id ∈ res.assetIds → a.status = AssetStatus.CHECKED_OUT := by
  unfold upsertBooking at hok
  cases hbd : buildBookingData input st with
  | error e =>
    simp only [hbd] at hok
    simp at hok
  | ok data =>
    simp only [hbd, hid] at hok
    unfold upsertBookingUpdatePath at hok
    cases hfind : findBooking st bid with
    | none =>
      simp only [hfind] at hok
      simp at hok
    | some old =>
      simp only [hfind] at hok
      injection hok with hok
      injection hok with hok1 hok
      injection hok with hok2 hok3
      have hoc : ongoingAssetCondition input (applyData data old) = true := by
        rw [hok3]
        rcases hcond with h | ⟨h1, l, h2, h3⟩
        · simp [ongoingAssetCondition, h]
        · simp [ongoingAssetCondition, h1, h2, h3]
      intro a ha haid
      rw [← hok1, reservedCheckoutScheduling_assets] at ha
      simp only [newAssetStatusFor, hoc, if_true, applyAssetStatusUpdate] at ha
      rw [← hok3] at haid
      exact updateBookinAssetStates_mem _ _ _ a ha haid

/-- C3: on an update whose input carries a status, an e-mail effect to
address `e` with template `tmpl` is emitted iff the custodian user's address
is `e` and the new status is `RESERVED` (reserved template), `COMPLETE`
(completed template), or `ONGOING` with a non-null `to` lying less than one
hour from now (check-in reminder); in particular `CANCELLED`/`ARCHIVED`
transitions and bookings without a custodian e-mail send nothing. -/
theorem upsertBooking_status_email (input : UpsertInput) (now : Int) (st : DBState) (bid : Nat)
    (s : BookingStatus) (st' : DBState) (effects : List Effect) (res : Booking)
    (hid : input.id = some bid)
    (hstat : input.status = some s)
    (hok : upsertBooking input now st = Except.ok (st', effects, res)) :
    ∀ e tmpl, Effect.email e tmpl ∈ effects ↔
      (custodianEmail st res = some e ∧
        ((tmpl = EmailTemplate.reserved ∧ s = BookingStatus.RESERVED) ∨
         (tmpl = EmailTemplate.completed ∧ s = BookingStatus.COMPLETE) ∨
         (tmpl = EmailTemplate.checkinReminder ∧ s = BookingStatus.ONGOING ∧
           ∃ t, res.to_ = some t ∧ calcTimeDifferenceHours t now < 1))) := by
  unfold upsertBooking at hok
  cases hbd : buildBookingData input st with
  | error e =>
    simp only [hbd] at hok
    simp at hok
  | ok data =>
    simp only [hbd, hid] at hok
    have hdf := buildBookingData_fields _ _ _ hbd
    unfold upsertBookingUpdatePath at hok
    cases hfind : findBooking st bid with
    | none =>
      simp only [hfind] at hok
      simp at hok
    | some old =>
      simp only [hfind] at hok
      injection hok with hok
      injection hok with hok1 hok
      injection hok with hok2 hok3
      intro e tmpl
      rw [← hok2]
      simp only [List.mem_append]
      constructor
      · intro hmem
        rcases hmem with (hmem | hmem) | hmem
        · revert hmem
          split
          · exact fun hmem => absurd hmem (cancelSheduler_no_email _ _ _)
          · simp
        · exact absurd hmem (reservedCheckoutScheduling_no_email _ _ _ _ _)
        · rw [← hok3]
          exact (statusChangeEmail_mem data (applyData data old) now st s e tmpl
            (by rw [hdf.1, hstat])).mp hmem
      · intro hr
        refine Or.inr ?_
        rw [← hok3] at hr
        exact (statusChangeEmail_mem data (applyData data old) now st s e tmpl
          (by rw [hdf.1, hstat])).mpr hr

theorem applyData_id (d : BookingData) (b : Booking) : (applyData d b).id = b.id := rfl

theorem storeBooking_nextJobId (st : DBState) (b : Booking) :
    (storeBooking st b).nextJobId = st.nextJobId := rfl

theorem storeBooking_bookings (st : DBState) (b : Booking) :
    (storeBooking st b).bookings =
      st.bookings.map (fun x => if x.id == b.id then b else x) := rfl

theorem reservedCheckoutScheduling_reserved (input : UpsertInput) (res : Booking)
    (st : DBState) (f : Int) (hf : res.from_ = some f)
    (hs : input.status = some BookingStatus.RESERVED) :
    reservedCheckoutScheduling input res st =
      ((scheduleNextBookingJob res.id (f - 3600000) checkoutReminderKey st).1,
        cancelSheduler (some res) ++
          [Effect.scheduleJob checkoutReminderKey res.id (f - 3600000) st.nextJobId]) := by
  unfold reservedCheckoutScheduling
  rw [hf, hs]
  rfl

theorem find?_map_id_pres (l : List Booking) (f : Booking → Booking)
    (hf : ∀ x, (f x).id = x.id) (i : Nat) (old : Booking)
    (h : l.find? (fun b => b.id == i) = some old) :
    (l.map f).find? (fun b => b.id == i) = some (f old) := by
  induction l with
  | nil => simp at h
  | cons hd t ih =>
    rw [List.map_cons]
    simp only [List.find?] at h ⊢
    rw [hf hd]
    cases hb : (hd.id == i) with
    | true =>
      rw [hb] at h
      simp only at h
      injection h with h
      subst h
      simp only
    | false =>
      rw [hb] at h
      simp only at h ⊢
      exact ih h

theorem scheduleNextBookingJob_ref (bookingId : Nat) (whenAt : Int) (key : String)
    (st : DBState) (old : Booking)
    (hfind : findBooking st bookingId = some old) :
    findBooking (scheduleNextBookingJob bookingId whenAt key st).1 bookingId =
      some { old with activeSchedulerReference := some st.nextJobId } := by
  unfold findBooking at hfind ⊢
  unfold scheduleNextBookingJob
  have := find?_map_id_pres st.bookings
    (fun b => if b.id == bookingId then { b with activeSchedulerReference := some st.nextJobId } else b)
    (fun x => by dsimp only; split <;> rfl) bookingId old hfind
  rw [this]
  have hp := List.find?_some hfind
  have hp2 : (old.id == bookingId) = true := hp
  simp [hp2]

theorem storeBooking_find_self (st : DBState) (res : Booking) (old : Booking)
    (h : findBooking st res.id = some old) :
    findBooking (storeBooking st res) res.id = some res := by
  unfold findBooking storeBooking
  have hfpres : ∀ x : Booking,
      ((fun x => if x.id == res.id then res else x) x).id = x.id := by
    intro x
    dsimp only
    split
    · next hxx =>
      have hx : x.id = res.id := by simpa using hxx
      rw [hx]
    · rfl
  have hmap := find?_map_id_pres st.bookings _ hfpres res.id old h
  rw [hmap]
  have hp := List.find?_some h
  have hp2 : (old.id == res.id) = true := hp
  simp [hp2]

theorem findBooking_applyAssetStatusUpdate (o : Option AssetStatus) (res : Booking)
    (st : DBState) (i : Nat) :
    findBooking (applyAssetStatusUpdate o res st) i = findBooking st i := by
  unfold findBooking
  rw [applyAssetStatusUpdate_bookings]

theorem reservedCheckoutScheduling_spec (input : UpsertInput) (res : Booking) (st : DBState)
    (f : Int) (hf : res.from_ = some f) (hs : input.status = some BookingStatus.RESERVED)
    (old : Booking) (hfind : findBooking st res.id = some old) :
    (∀ r, res.activeSchedulerReference = some r →
      Effect.cancelScheduler r ∈ (reservedCheckoutScheduling input res st).2) ∧
    (∃ jid, Effect.scheduleJob checkoutReminderKey res.id (f - 3600000) jid ∈
        (reservedCheckoutScheduling input res st).2 ∧
      ∃ b', findBooking (reservedCheckoutScheduling input res st).1 res.id = some b' ∧
        b'.activeSchedulerReference = some jid) := by
  rw [reservedCheckoutScheduling_reserved input res st f hf hs]
  constructor
  · intro r hr
    simp [cancelSheduler, hr]
  · refine ⟨st.nextJobId, by simp, ?_⟩
    refine ⟨{ old with activeSchedulerReference := some st.nextJobId }, ?_, rfl⟩
    exact scheduleNextBookingJob_ref res.id (f - 3600000) checkoutReminderKey st old hfind

theorem find?_append_fresh (l : List Booking) (b0 : Booking)
    (hfresh : ∀ b ∈ l, b.id ≠ b0.id) :
    (l ++ [b0]).find? (fun b => b.id == b0.id) = some b0 := by
  induction l with
  | nil => simp [List.find?]
  | cons hd t ih =>
    have hne : (hd.id == b0.id) = false := by
      simpa using hfresh hd (by simp)
    simp only [List.cons_append, List.find?, hne]
    exact ih (fun b hb => hfresh b (by simp [hb]))

theorem createBooking_bookings (d : BookingData) (st : DBState) :
    (createBooking d st).1.bookings = st.bookings ++ [(createBooking d st).2] := rfl

/-- C4: on both the create and the update path, if the resulting booking has
a non-null `from` and the requested status is `RESERVED`, then any scheduler
job referenced by the booking is cancelled, a checkout-reminder job is
scheduled for exactly one hour (3600000 ms) before `from`, and the stored
booking's `activeSchedulerReference` is set to the new job's id.  (`hfresh`
is the fresh-id well-formedness of the booking counter.) -/
theorem upsertBooking_reserved_scheduling (input : UpsertInput) (now : Int) (st : DBState)
    (st' : DBState) (effects : List Effect) (res : Booking) (f : Int)
    (hok : upsertBooking input now st = Except.ok (st', effects, res))
    (hfrom : res.from_ = some f)
    (hres : input.status = some BookingStatus.RESERVED)
    (hfresh : ∀ b ∈ st.bookings, b.id ≠ st.nextBookingId) :
    (∀ r, res.activeSchedulerReference = some r → Effect.cancelScheduler r ∈ effects) ∧
    (∃ jid, Effect.scheduleJob checkoutReminderKey res.id (f - 3600000) jid ∈ effects ∧
      ∃ b', findBooking st' res.id = some b' ∧
        b'.activeSchedulerReference = some jid) := by
  unfold upsertBooking at hok
  cases hbd : buildBookingData input st with
  | error e =>
    simp only [hbd] at hok
    simp at hok
  | ok data =>
    simp only [hbd] at hok
    cases hid : input.id with
    | some bid =>
      simp only [hid] at hok
      unfold upsertBookingUpdatePath at hok
      cases hfind : findBooking st bid with
      | none =>
        simp only [hfind] at hok
        simp at hok
      | some old =>
        simp only [hfind] at hok
        injection hok with hok
        injection hok with hok1 hok
        injection hok with hok2 hok3
        have hfind2 : List.find? (fun b => b.id == bid) st.bookings = some old := hfind
        have hp := List.find?_some hfind2
        have hp2 : (old.id == bid) = true := hp
        have hid2 : (applyData data old).id = bid := by
          rw [applyData_id]
          simpa using hp2
        have hfindres : findBooking st (applyData data old).id = some old := by
          rw [hid2]
          exact hfind
        have hA := storeBooking_find_self st (applyData data old) old hfindres
        have hB : findBooking
            (applyAssetStatusUpdate
              (newAssetStatusFor input (applyData data old)
                (if isTerminalState input = true then some old else none))
              (applyData data old) (storeBooking st (applyData data old)))
            (applyData data old).id = some (applyData data old) := by
          rw [findBooking_applyAssetStatusUpdate]
          exact hA
        have hfrom2 : (applyData data old).from_ = some f := by
          rw [hok3]
          exact hfrom
        have hspec := reservedCheckoutScheduling_spec input (applyData data old) _ f
          hfrom2 hres (applyData data old) hB
        obtain ⟨hc, jid, hmem, b', hfb, hrefb⟩ := hspec
        constructor
        · intro r hr
          rw [← hok2]
          refine List.mem_append.mpr (Or.inl (List.mem_append.mpr (Or.inr ?_)))
          exact hc r (by rw [hok3]; exact hr)
        · refine ⟨jid, ?_, b', ?_, hrefb⟩
          · rw [← hok2]
            refine List.mem_append.mpr (Or.inl (List.mem_append.mpr (Or.inr ?_)))
            rw [← hok3]
            exact hmem
          · rw [← hok1, ← hok3]
            exact hfb
    | none =>
      simp only [hid] at hok
      unfold upsertBookingCreatePath at hok
      injection hok with hok
      injection hok with hok1 hok
      injection hok with hok2 hok3
      have hcreate : findBooking
          (createBooking (organizationConnectData input.organizationId
            (creatorConnectData input.creatorId data)) st).1
          (createBooking (organizationConnectData input.organizationId
            (creatorConnectData input.creatorId data)) st).2.id =
          some (createBooking (organizationConnectData input.organizationId
            (creatorConnectData input.creatorId data)) st).2 := by
        unfold findBooking
        rw [createBooking_bookings]
        exact find?_append_fresh st.bookings _ (fun b hb => hfresh b hb)
      have hfrom2 : (createBooking (organizationConnectData input.organizationId
          (creatorConnectData input.creatorId data)) st).2.from_ = some f := by
        rw [hok3]
        exact hfrom
      have hspec := reservedCheckoutScheduling_spec input _ _ f hfrom2 hres _ hcreate
      obtain ⟨hc, jid, hmem, b', hfb, hrefb⟩ := hspec
      constructor
      · intro r hr
        rw [← hok2]
        exact hc r (by rw [hok3]; exact hr)
      · refine ⟨jid, ?_, b', ?_, hrefb⟩
        · rw [← hok2, ← hok3]
          exact hmem
        · rw [← hok1, ← hok3]
          exact hfb

theorem map_id_map_pres (l : List Booking) (f : Booking → Booking)
    (hf : ∀ x, (f x).id = x.id) :
    (l.map f).map (fun x => x.id) = l.map (fun x => x.id) := by
  rw [List.map_map]
  exact List.map_congr_left (fun a _ => hf a)

theorem storeBooking_ids (st : DBState) (b : Booking) :
    (storeBooking st b).bookings.map (fun x => x.id) =
      st.bookings.map (fun x => x.id) := by
  unfold storeBooking
  refine map_id_map_pres _ _ (fun x => ?_)
  dsimp only
  split
  · next hxx =>
    have hx : x.id = b.id := by simpa using hxx
    rw [hx]
  · rfl

theorem scheduleNextBookingJob_ids (bookingId : Nat) (whenAt : Int) (key : String)
    (st : DBState) :
    (scheduleNextBookingJob bookingId whenAt key st).1.bookings.map (fun x => x.id) =
      st.bookings.map (fun x => x.id) := by
  unfold scheduleNextBookingJob
  refine map_id_map_pres _ _ (fun x => ?_)
  dsimp only
  split <;> rfl

theorem reservedCheckoutScheduling_ids (input : UpsertInput) (res : Booking)
    (st : DBState) :
    (reservedCheckoutScheduling input res st).1.bookings.map (fun x => x.id) =
      st.bookings.map (fun x => x.id) := by
  unfold reservedCheckoutScheduling
  split
  · next f _ _ =>
    exact scheduleNextBookingJob_ids res.id (f - 3600000) checkoutReminderKey st
  · rfl

theorem applyAssetStatusUpdate_ids (o : Option AssetStatus) (res : Booking) (st : DBState) :
    (applyAssetStatusUpdate o res st).bookings.map (fun x => x.id) =
      st.bookings.map (fun x => x.id) := by
  rw [applyAssetStatusUpdate_bookings]

theorem reservedCheckoutScheduling_find (input : UpsertInput) (res : Booking)
    (stx : DBState) (i : Nat) (b : Booking) (h : findBooking stx i = some b) :
    ∃ b', findBooking (reservedCheckoutScheduling input res stx).1 i = some b' ∧
      b'.creatorId = b.creatorId ∧ b'.organizationId = b.organizationId := by
  unfold reservedCheckoutScheduling
  split
  · unfold scheduleNextBookingJob findBooking
    have hfpres : ∀ x : Booking,
        ((fun b => if b.id == res.id then
          { b with activeSchedulerReference := some stx.nextJobId } else b) x).id = x.id := by
      intro x
      dsimp only
      split <;> rfl
    refine ⟨_, find?_map_id_pres stx.bookings _ hfpres i b h, ?_, ?_⟩ <;>
      (dsimp only; split <;> rfl)
  · exact ⟨b, h, rfl, rfl⟩

theorem applyData_creator_org (d : BookingData) (b : Booking)
    (hc : d.creatorConnect = none) (ho : d.organizationConnect = none) :
    (applyData d b).creatorId = b.creatorId ∧
    (applyData d b).organizationId = b.organizationId := by
  unfold applyData
  rw [hc, ho]
  exact ⟨rfl, rfl⟩

/-- C8: `upsertBooking` creates a new booking (one new row, fresh id) when
the input carries no id, and updates in place (same id multiset) when it
does; on the update path the input's `creatorId`/`organizationId` are never
written, so the stored creator and organization of the booking are unchanged
by every update. -/
theorem upsertBooking_create_update_frame (input : UpsertInput) (now : Int) (st : DBState)
    (st' : DBState) (effects : List Effect) (res : Booking)
    (hok : upsertBooking input now st = Except.ok (st', effects, res)) :
    (input.id = none →
      st'.bookings.map (fun b => b.id) =
        st.bookings.map (fun b => b.id) ++ [st.nextBookingId]) ∧
    (∀ bid old, input.id = some bid → findBooking st bid = some old →
      st'.bookings.map (fun b => b.id) = st.bookings.map (fun b => b.id) ∧
      ∃ b', findBooking st' bid = some b' ∧ b'.creatorId = old.creatorId ∧
        b'.organizationId = old.organizationId) := by
  unfold upsertBooking at hok
  cases hbd : buildBookingData input st with
  | error e =>
    simp only [hbd] at hok
    simp at hok
  | ok data =>
    simp only [hbd] at hok
    have hdf := buildBookingData_fields _ _ _ hbd
    constructor
    · intro hid
      simp only [hid] at hok
      unfold upsertBookingCreatePath at hok
      injection hok with hok
      injection hok with hok1 hok
      injection hok with hok2 hok3
      rw [← hok1]
      rw [reservedCheckoutScheduling_ids]
      rw [createBooking_bookings]
      simp [createBooking]
    · intro bid old hid hfind
      simp only [hid] at hok
      unfold upsertBookingUpdatePath at hok
      simp only [hfind] at hok
      injection hok with hok
      injection hok with hok1 hok
      injection hok with hok2 hok3
      constructor
      · rw [← hok1]
        rw [reservedCheckoutScheduling_ids, applyAssetStatusUpdate_ids, storeBooking_ids]
      · have hfind2 : List.find? (fun b => b.id == bid) st.bookings = some old := hfind
        have hp := List.find?_some hfind2
        have hp2 : (old.id == bid) = true := hp
        have hid2 : (applyData data old).id = bid := by
          rw [applyData_id]
          simpa using hp2
        have hfindres : findBooking st (applyData data old).id = some old := by
          rw [hid2]
          exact hfind
        have hA := storeBooking_find_self st (applyData data old) old hfindres
        have hB : findBooking
            (applyAssetStatusUpdate
              (newAssetStatusFor input (applyData data old)
                (if isTerminalState input = true then some old else none))
              (applyData data old) (storeBooking st (applyData data old)))
            (applyData data old).id = some (applyData data old) := by
          rw [findBooking_applyAssetStatusUpdate]
          exact hA
        obtain ⟨b', hfb, hbc, hbo⟩ := reservedCheckoutScheduling_find input
          (applyData data old) _ (applyData data old).id (applyData data old) hB
        have hco := applyData_creator_org data old hdf.2.2.2.1 hdf.2.2.2.2
        refine ⟨b', ?_, ?_, ?_⟩
        · rw [← hok1, ← hid2]
          exact hfb
        · rw [hbc, hco.1]
        · rw [hbo, hco.2]

theorem updateBookinAssetStates_bookings (b : Booking) (s : AssetStatus) (st : DBState) :
    (updateBookinAssetStates b s st).bookings = st.bookings := rfl

/-- C5: `deleteBooking` removes the booking row; when its status at deletion
time is `ONGOING`/`OVERDUE` the attached assets end `AVAILABLE`, otherwise
the assets are untouched; any active scheduler job is cancelled; and the
deletion e-mail is sent exactly when the custodian user has an address
(`hnodup` is uniqueness of stored booking ids). -/
theorem deleteBooking_spec (st : DBState) (id : Nat) (st' : DBState) (effects : List Effect) (b : Booking)
    (hnodup : (st.bookings.map (fun x => x.id)).Nodup)
    (hok : deleteBooking id st = Except.ok (st', effects, b)) :
    (∀ x ∈ st'.bookings, x.id ≠ id) ∧
    ((b.status = BookingStatus.ONGOING ∨ b.status = BookingStatus.OVERDUE) →
      ∀ a ∈ st'.assets, a.id ∈ b.assetIds → a.status = AssetStatus.AVAILABLE) ∧
    (¬(b.status = BookingStatus.ONGOING ∨ b.status = BookingStatus.OVERDUE) →
      st'.assets = st.assets) ∧
    (∀ r, b.activeSchedulerReference = some r → Effect.cancelScheduler r ∈ effects) ∧
    (∀ e, custodianEmail st b = some e → Effect.email e EmailTemplate.deleted ∈ effects) ∧
    (custodianEmail st b = none → ∀ e tmpl, Effect.email e tmpl ∉ effects) := by
  unfold deleteBooking at hok
  cases hfind : findBooking st id with
  | none =>
    simp only [hfind] at hok
    simp at hok
  | some b0 =>
    simp only [hfind] at hok
    have hfind2 : List.find? (fun x => x.id == id) st.bookings = some b0 := hfind
    have hp := List.find?_some hfind2
    have hp2 : (b0.id == id) = true := hp
    have hb0mem : b0 ∈ st.bookings := List.mem_of_find?_eq_some hfind2
    have hact : (st.bookings.find? (fun x =>
        x.id == id && [BookingStatus.OVERDUE, BookingStatus.ONGOING].contains x.status)).isSome =
        [BookingStatus.OVERDUE, BookingStatus.ONGOING].contains b0.status := by
      cases hcb : [BookingStatus.OVERDUE, BookingStatus.ONGOING].contains b0.status with
      | true =>
        have hex : ∃ x ∈ st.bookings, (x.id == id &&
            [BookingStatus.OVERDUE, BookingStatus.ONGOING].contains x.status) = true :=
          ⟨b0, hb0mem, by rw [Bool.and_eq_true]; exact ⟨hp2, hcb⟩⟩
        exact List.find?_isSome.mpr hex
      | false =>
        have hnone : st.bookings.find? (fun x =>
            x.id == id && [BookingStatus.OVERDUE, BookingStatus.ONGOING].contains x.status) = none := by
          rw [List.find?_eq_none]
          intro x hx hpx
          simp only [Bool.and_eq_true] at hpx
          have hxid : x.id = b0.id := by
            have h1 : x.id = id := by simpa using hpx.1
            have h2 : b0.id = id := by simpa using hp2
            rw [h1, h2]
          have hxb : x = b0 := List.inj_on_of_nodup_map hnodup hx hb0mem hxid
          rw [hxb] at hpx
          rw [hpx.2] at hcb
          simp at hcb
        rw [hnone]
        rfl
    rw [hact] at hok
    injection hok with hok
    injection hok with hok1 hok
    injection hok with hok2 hok3
    subst hok3
    refine ⟨?_, ?_, ?_, ?_, ?_, ?_⟩
    · intro x hx
      rw [← hok1] at hx
      cases hcb : [BookingStatus.OVERDUE, BookingStatus.ONGOING].contains b0.status with
      | true =>
        simp only [hcb, if_true] at hx
        rw [updateBookinAssetStates_bookings] at hx
        have hne := (List.mem_filter.mp hx).2
        simpa using hne
      | false =>
        simp only [hcb, Bool.false_eq_true, if_false] at hx
        have hne := (List.mem_filter.mp hx).2
        simpa using hne
    · intro hstatus a ha haid
      have hcb : [BookingStatus.OVERDUE, BookingStatus.ONGOING].contains b0.status = true := by
        rcases hstatus with h | h <;> rw [h] <;> rfl
      rw [← hok1] at ha
      simp only [hcb, if_true] at ha
      exact updateBookinAssetStates_mem _ _ _ a ha haid
    · intro hstatus
      have hcb : [BookingStatus.OVERDUE, BookingStatus.ONGOING].contains b0.status = false := by
        cases h : [BookingStatus.OVERDUE, BookingStatus.ONGOING].contains b0.status with
        | true =>
          exfalso
          apply hstatus
          have hh : b0.status = BookingStatus.OVERDUE ∨ b0.status = BookingStatus.ONGOING := by
            simpa using h
          tauto
        | false => rfl
      rw [← hok1]
      simp only [hcb, Bool.false_eq_true, if_false]
    · intro r hr
      rw [← hok2]
      refine List.mem_append.mpr (Or.inr ?_)
      simp [cancelSheduler, hr]
    · intro e he
      rw [← hok2]
      refine List.mem_append.mpr (Or.inl ?_)
      rw [he]
      simp
    · intro hnone e tmpl hmem
      rw [← hok2] at hmem
      rcases List.mem_append.mp hmem with hmem | hmem
      · rw [hnone] at hmem
        simp at hmem
      · exact cancelSheduler_no_email _ _ _ hmem

/-! ## Concrete fixtures and witnesses -/

/-- A concrete stored booking used by the witnesses. -/
def bookingOne : Booking :=
  { id := 1, name := "b", status := BookingStatus.ONGOING, from_ := some 7200000,
    to_ := some 3600000, custodianUserId := some 5, custodianTeamMemberId := none,
    creatorId := some 9, organizationId := some 4, activeSchedulerReference := some 7,
    assetIds := [10, 11] }

/-- A concrete database state holding `bookingOne`, its two assets and its
custodian user. -/
def dbOne : DBState :=
  { bookings := [bookingOne],
    assets := [{ id := 10, status := AssetStatus.CHECKED_OUT },
               { id := 11, status := AssetStatus.AVAILABLE }],
    users := [{ id := 5, email := "u@x", firstName := "f", lastName := "l" }],
    teamMembers := [], nextBookingId := 2, nextJobId := 100 }

/-- `bookingOne` after a `COMPLETE` status update. -/
def bookingOneComplete : Booking := { bookingOne with status := BookingStatus.COMPLETE }

/-- The state after completing `bookingOne`: both assets released. -/
def dbOneComplete : DBState :=
  { bookings := [bookingOneComplete],
    assets := [{ id := 10, status := AssetStatus.AVAILABLE },
               { id := 11, status := AssetStatus.AVAILABLE }],
    users := dbOne.users, teamMembers := [], nextBookingId := 2, nextJobId := 100 }

/-- The state after re-asserting `ONGOING` on `bookingOne`: both assets
checked out. -/
def dbOneCheckedOut : DBState :=
  { bookings := [bookingOne],
    assets := [{ id := 10, status := AssetStatus.CHECKED_OUT },
               { id := 11, status := AssetStatus.CHECKED_OUT }],
    users := dbOne.users, teamMembers := [], nextBookingId := 2, nextJobId := 100 }

/-- `bookingOne` after a `RESERVED` status update (as returned by the update,
before the scheduler reference rewrite). -/
def bookingOneReserved : Booking := { bookingOne with status := BookingStatus.RESERVED }

/-- The state after reserving `bookingOne`: the stored row carries the new
scheduler job id 100. -/
def dbOneReserved : DBState :=
  { bookings := [{ bookingOneReserved with activeSchedulerReference := some 100 }],
    assets := dbOne.assets, users := dbOne.users, teamMembers := [],
    nextBookingId := 2, nextJobId := 101 }

/-- The state after deleting `bookingOne`: row gone, assets released. -/
def dbOneDeleted : DBState :=
  { bookings := [],
    assets := [{ id := 10, status := AssetStatus.AVAILABLE },
               { id := 11, status := AssetStatus.AVAILABLE }],
    users := dbOne.users, teamMembers := [], nextBookingId := 2, nextJobId := 100 }

/-- The effects of completing `bookingOne`. -/
def completeEffects : List Effect :=
  [Effect.cancelScheduler 7, Effect.email "u@x" EmailTemplate.completed]

/-- The effects of reserving `bookingOne`. -/
def reservedEffects : List Effect :=
  [Effect.cancelScheduler 7,
    Effect.scheduleJob checkoutReminderKey 1 3600000 100,
    Effect.email "u@x" EmailTemplate.reserved]

/-- The effects of deleting `bookingOne`. -/
def deletedEffects : List Effect :=
  [Effect.email "u@x" EmailTemplate.deleted, Effect.cancelScheduler 7]

/-- Witness for C1: completing the `ONGOING` `bookingOne` leaves its first
attached asset `AVAILABLE`. -/
theorem upsertBooking_terminal_assets_witness :
    ({ id := 10, status := AssetStatus.AVAILABLE } : Asset).status =
      AssetStatus.AVAILABLE :=
  (upsertBooking_terminal_assets
    { id := some 1, status := some BookingStatus.COMPLETE } 0 dbOne 1 bookingOne
    dbOneComplete completeEffects bookingOneComplete rfl (Or.inr (Or.inr rfl)) rfl
    rfl).1 (Or.inl rfl) { id := 10, status := AssetStatus.AVAILABLE }
    (by decide) (by decide)

/-- Witness for C2: re-asserting `ONGOING` on `bookingOne` leaves its first
attached asset `CHECKED_OUT`. -/
theorem upsertBooking_ongoing_checked_out_witness :
    ({ id := 10, status := AssetStatus.CHECKED_OUT } : Asset).status =
      AssetStatus.CHECKED_OUT :=
  upsertBooking_ongoing_checked_out
    { id := some 1, status := some BookingStatus.ONGOING } 0 dbOne 1
    dbOneCheckedOut [] bookingOne rfl rfl (Or.inl rfl)
    { id := 10, status := AssetStatus.CHECKED_OUT } (by decide) (by decide)

/-- Witness for C3: completing `bookingOne` sends the completed-booking
e-mail to the custodian. -/
theorem upsertBooking_status_email_witness :
    Effect.email "u@x" EmailTemplate.completed ∈ completeEffects :=
  (upsertBooking_status_email
    { id := some 1, status := some BookingStatus.COMPLETE } 0 dbOne 1
    BookingStatus.COMPLETE dbOneComplete completeEffects bookingOneComplete rfl rfl
    rfl "u@x" EmailTemplate.completed).mpr ⟨rfl, Or.inr (Or.inl ⟨rfl, rfl⟩)⟩

/-- Witness for C4: reserving `bookingOne` cancels job 7, schedules the
checkout reminder an hour before `from`, and stores the new job id. -/
theorem upsertBooking_reserved_scheduling_witness :
    (∀ r, bookingOneReserved.activeSchedulerReference = some r →
      Effect.cancelScheduler r ∈ reservedEffects) ∧
    (∃ jid, Effect.scheduleJob checkoutReminderKey bookingOneReserved.id
        ((7200000 : Int) - 3600000) jid ∈ reservedEffects ∧
      ∃ b', findBooking dbOneReserved bookingOneReserved.id = some b' ∧
        b'.activeSchedulerReference = some jid) :=
  upsertBooking_reserved_scheduling
    { id := some 1, status := some BookingStatus.RESERVED } 0 dbOne
    dbOneReserved reservedEffects bookingOneReserved 7200000 rfl rfl rfl (by decide)

/-- Witness for C5: deleting `bookingOne` sends the deletion e-mail and
cancels its scheduler job. -/
theorem deleteBooking_spec_witness :
    Effect.email "u@x" EmailTemplate.deleted ∈ deletedEffects ∧
    Effect.cancelScheduler 7 ∈ deletedEffects :=
  ⟨(deleteBooking_spec dbOne 1 dbOneDeleted deletedEffects bookingOne (by decide)
      rfl).2.2.2.2.1 "u@x" rfl,
   (deleteBooking_spec dbOne 1 dbOneDeleted deletedEffects bookingOne (by decide)
      rfl).2.2.2.1 7 rfl⟩

/-- Witness for C8: completing `bookingOne` keeps the stored booking ids and
its creator and organization connections. -/
theorem upsertBooking_create_update_frame_witness :
    dbOneComplete.bookings.map (fun b => b.id) = dbOne.bookings.map (fun b => b.id) ∧
    ∃ b', findBooking dbOneComplete 1 = some b' ∧ b'.creatorId = bookingOne.creatorId ∧
      b'.organizationId = bookingOne.organizationId :=
  (upsertBooking_create_update_frame
    { id := some 1, status := some BookingStatus.COMPLETE } 0 dbOne
    dbOneComplete completeEffects bookingOneComplete rfl).2 1 bookingOne rfl rfl
